import Mathlib

/-!
# Shallow embedding of `defix::ProblemRegistry` (sources/ProblemRegistry.move)

The module is an Aptos Move contract.  We embed its state and its four
`public entry` functions as pure Lean functions over an explicit global
state.  Modelling conventions, matching Move semantics:

* `address` is opaque; we model it as `Nat` (`Addr`).
* `vector<u8>` values (`cid`, `lat`, `lng`) are opaque byte strings,
  modelled as `List Nat`; the contract never inspects them.
* Move global storage holds at most one `Registry` resource per address;
  we model it as a function `Addr → Option Registry`, and an
  `aptos_std::table::Table<u64, Problem>` as `Nat → Option Problem`.
* A Move entry function either commits all of its writes or aborts with
  no observable effect.  Each entry function therefore returns
  `Except MoveErr GlobalState`; `run*` wrappers below expose the
  transactional view (an aborting call leaves the pre-state in place).
* `u64` values are modelled as `Nat`.  Every arithmetic operation in the
  module is an increment by one of a counter that starts at 0 or 1
  (`next_problem_id`, `votes`, `vector::length + 1`), so the abort on
  `u64` overflow can only fire after `2^64 - 2` successful transactions
  against a single resource; it is not modelled.
* `coin::transfer<AptosCoin>` is modelled on a total balance map
  `Addr → Nat`: it aborts iff the sender's balance is below the amount
  (`EInsufficientBalance` in `aptos_framework::coin`), otherwise it
  withdraws from the sender and deposits to the recipient.

Abort reasons: the module's own `assert!`/`abort` codes 1–7 are kept
verbatim as `MoveErr.abortCode n`; framework aborts (missing resource,
missing table key, duplicate table key, failed transfer) get their own
constructors.
-/

namespace DefixProblemRegistry

/-- An on-chain account address (opaque). -/
abbrev Addr := Nat

/-- A `vector<u8>` payload (opaque to the contract). -/
abbrev Bytes := List Nat

/-- `struct Solution has store` (ProblemRegistry.move, lines 9–14). -/
structure Solution where
  id : Nat
  solver : Addr
  cid : Bytes
  votes : Nat
  deriving Repr, DecidableEq

/-- `struct Problem has store, key` (lines 16–26).  `open` is a Lean
keyword, so the field is written `«open»`. -/
structure Problem where
  id : Nat
  owner : Addr
  cid : Bytes
  lat : Bytes
  lng : Bytes
  bounty_octas : Nat
  «open» : Bool
  solutions : List Solution
  chosen : Option Nat
  deriving Repr

/-- `struct Registry has key` (lines 28–31). -/
structure Registry where
  next_problem_id : Nat
  problems : Nat → Option Problem

/-- The Move global storage visible to this module: the `Registry`
resource per address, plus the `AptosCoin` balance per address. -/
structure GlobalState where
  registries : Addr → Option Registry
  balances : Addr → Nat

/-- Abort reasons.  `abortCode n` is a module abort with code `n`
(from `assert!(_, n)` or `abort n`); the rest are framework aborts. -/
inductive MoveErr where
  | missingRegistry      -- `borrow_global_mut<Registry>` at an address with no resource
  | missingProblem       -- `table::borrow_mut` on an absent key
  | duplicateProblem     -- `table::add` on a present key
  | insufficientBalance  -- `coin::transfer` with balance < amount
  | abortCode (n : Nat)  -- the module's own abort codes 1–7
  deriving Repr, DecidableEq

/-- Point update of the registry map (`move_to` / writing back a
`borrow_global_mut`). -/
def setRegistry (f : Addr → Option Registry) (a : Addr) (r : Registry) :
    Addr → Option Registry :=
  fun x => if x = a then some r else f x

/-- Point update of a problem table (`table::add` / writing back a
`table::borrow_mut`). -/
def setProblem (t : Nat → Option Problem) (k : Nat) (p : Problem) :
    Nat → Option Problem :=
  fun x => if x = k then some p else t x

/-- `coin::transfer<AptosCoin>(sender, recipient, amount)`: abort iff the
sender's balance is insufficient; otherwise withdraw then deposit. -/
def coinTransfer (bal : Addr → Nat) (sender recipient : Addr) (amount : Nat) :
    Except MoveErr (Addr → Nat) :=
  if bal sender < amount then
    .error .insufficientBalance
  else
    let b1 := fun a => if a = sender then bal sender - amount else bal a
    .ok (fun a => if a = recipient then b1 recipient + amount else b1 a)

/-- `fun ensure_registry(account: &signer)` (lines 33–39): create an
empty `Registry` under the signer iff none exists. -/
def ensure_registry (s : GlobalState) (account : Addr) : GlobalState :=
  match s.registries account with
  | some _ => s
  | none =>
      let fresh : Registry := { next_problem_id := 1, problems := fun _ => none }
      { s with registries := setRegistry s.registries account fresh }

/-- `public entry fun create_problem` (lines 41–59). -/
def create_problem (s : GlobalState) (account : Addr)
    (cid lat lng : Bytes) (bounty_octas : Nat) : Except MoveErr GlobalState :=
  let s1 := ensure_registry s account
  match s1.registries account with
  | none => .error .missingRegistry
  | some reg =>
      let id := reg.next_problem_id
      let reg1 : Registry := { reg with next_problem_id := id + 1 }
      let p : Problem :=
        { id := id, owner := account, cid := cid, lat := lat, lng := lng,
          bounty_octas := bounty_octas, «open» := true,
          solutions := [], chosen := none }
      -- `table::add` aborts if the key is already present
      match reg1.problems id with
      | some _ => .error .duplicateProblem
      | none =>
          let reg2 : Registry := { reg1 with problems := setProblem reg1.problems id p }
          .ok { s1 with registries := setRegistry s1.registries account reg2 }

/-- `public entry fun add_solution` (lines 61–71).  Note: the `Registry`
is resolved at the *signer's* address. -/
def add_solution (s : GlobalState) (account : Addr) (problem_id : Nat)
    (solver_addr : Addr) (cid : Bytes) : Except MoveErr GlobalState :=
  match s.registries account with
  | none => .error .missingRegistry
  | some reg =>
      match reg.problems problem_id with
      | none => .error .missingProblem
      | some p =>
          if p.«open» = false then .error (.abortCode 1)
          else if solver_addr ≠ account then .error (.abortCode 2)
          else
            let new_id := p.solutions.length + 1
            let sol : Solution :=
              { id := new_id, solver := solver_addr, cid := cid, votes := 0 }
            let p1 := { p with solutions := p.solutions ++ [sol] }
            let reg1 : Registry := { reg with problems := setProblem reg.problems problem_id p1 }
            .ok { s with registries := setRegistry s.registries account reg1 }

/-- The `while` loop of `vote_solution` (lines 79–89): increment the
votes of the first solution whose `id` matches, or report no match. -/
def voteFirst (sid : Nat) : List Solution → Option (List Solution)
  | [] => none
  | sol :: rest =>
      if sol.id = sid then some ({ sol with votes := sol.votes + 1 } :: rest)
      else match voteFirst sid rest with
        | some rest1 => some (sol :: rest1)
        | none => none

/-- `public entry fun vote_solution` (lines 73–90).  The `Registry` is
resolved at the *voter's* address. -/
def vote_solution (s : GlobalState) (voter : Addr) (problem_id solution_id : Nat) :
    Except MoveErr GlobalState :=
  match s.registries voter with
  | none => .error .missingRegistry
  | some reg =>
      match reg.problems problem_id with
      | none => .error .missingProblem
      | some p =>
          if p.«open» = false then .error (.abortCode 3)
          else
            match voteFirst solution_id p.solutions with
            | none => .error (.abortCode 4)   -- `abort 4; // solution not found`
            | some sols =>
                let p1 := { p with solutions := sols }
                let reg1 : Registry := { reg with problems := setProblem reg.problems problem_id p1 }
                .ok { s with registries := setRegistry s.registries voter reg1 }

/-- The scan of `release_reward` (lines 100–110): the solver of the first
solution whose `id` matches, if any.  The source realises this with a
sentinel: `solver_found` starts as the caller's own address and the loop
`break`s on the first match. -/
def firstSolver (sid : Nat) : List Solution → Option Addr
  | [] => none
  | sol :: rest => if sol.id = sid then some sol.solver else firstSolver sid rest

/-- `public entry fun release_reward` (lines 92–117).  The sentinel check
`assert!(solver_found != addr, 7)` fires both when the scan found no
match (`solver_found` still holds its initial value `addr`) and when the
matched solution's `solver` happens to equal `addr`. -/
def release_reward (s : GlobalState) (owner : Addr) (problem_id solution_id : Nat) :
    Except MoveErr GlobalState :=
  match s.registries owner with
  | none => .error .missingRegistry
  | some reg =>
      match reg.problems problem_id with
      | none => .error .missingProblem
      | some p =>
          if p.owner ≠ owner then .error (.abortCode 5)
          else if p.«open» = false then .error (.abortCode 6)
          else
            let solver_found := (firstSolver solution_id p.solutions).getD owner
            if solver_found = owner then .error (.abortCode 7)
            else
              match coinTransfer s.balances owner solver_found p.bounty_octas with
              | .error e => .error e
              | .ok bal1 =>
                  let p1 := { p with «open» := false, chosen := some solution_id }
                  let reg1 : Registry := { reg with problems := setProblem reg.problems problem_id p1 }
                  .ok { registries := setRegistry s.registries owner reg1, balances := bal1 }

/-- The observable result of submitting `add_solution` as a transaction:
Move aborts roll the whole transaction back, so an aborting call leaves
the pre-state in place.  The boolean reports success. -/
def runAdd (s : GlobalState) (account : Addr) (problem_id : Nat)
    (solver_addr : Addr) (cid : Bytes) : GlobalState × Bool :=
  match add_solution s account problem_id solver_addr cid with
  | .ok s1 => (s1, true)
  | .error _ => (s, false)

/-- The observable result of submitting `vote_solution` as a transaction. -/
def runVote (s : GlobalState) (voter : Addr) (problem_id solution_id : Nat) :
    GlobalState × Bool :=
  match vote_solution s voter problem_id solution_id with
  | .ok s1 => (s1, true)
  | .error _ => (s, false)

/-- The observable result of submitting `release_reward` as a transaction. -/
def runRelease (s : GlobalState) (owner : Addr) (problem_id solution_id : Nat) :
    GlobalState × Bool :=
  match release_reward s owner problem_id solution_id with
  | .ok s1 => (s1, true)
  | .error _ => (s, false)

/-- Genesis state: no `Registry` resource published anywhere; arbitrary
coin balances. -/
def initState (bal : Addr → Nat) : GlobalState :=
  { registries := fun _ => none, balances := bal }

/-- The problem stored under key `problem_id` of the registry at `a`,
if both exist. -/
def lookupProb (s : GlobalState) (a : Addr) (problem_id : Nat) : Option Problem :=
  match s.registries a with
  | none => none
  | some reg => reg.problems problem_id

/-- The id the next `create_problem` by `a` will allocate: the registry's
counter, or 1 if `a` has no registry yet (`ensure_registry` starts the
counter at 1). -/
def nextId (s : GlobalState) (a : Addr) : Nat :=
  match s.registries a with
  | none => 1
  | some reg => reg.next_problem_id

/-- One successful transaction against the module (an aborted transaction
does not change state, so it is not a step). -/
inductive Step : GlobalState → GlobalState → Prop where
  | create (s : GlobalState) (account : Addr) (cid lat lng : Bytes)
      (bounty : Nat) (s1 : GlobalState)
      (h : create_problem s account cid lat lng bounty = .ok s1) : Step s s1
  | addSol (s : GlobalState) (account : Addr) (problem_id : Nat)
      (solver_addr : Addr) (cid : Bytes) (s1 : GlobalState)
      (h : add_solution s account problem_id solver_addr cid = .ok s1) : Step s s1
  | vote (s : GlobalState) (voter : Addr) (problem_id solution_id : Nat)
      (s1 : GlobalState)
      (h : vote_solution s voter problem_id solution_id = .ok s1) : Step s s1
  | release (s : GlobalState) (owner : Addr) (problem_id solution_id : Nat)
      (s1 : GlobalState)
      (h : release_reward s owner problem_id solution_id = .ok s1) : Step s s1

/-- States reachable from a genesis state by successful transactions. -/
inductive Reachable : GlobalState → Prop where
  | init (bal : Addr → Nat) : Reachable (initState bal)
  | step {s s1 : GlobalState} (hr : Reachable s) (hs : Step s s1) : Reachable s1

/-- Per-problem invariant: a problem stored at key `pid` of the registry
published at `a` is owned by `a`, carries its own key as `id`, has
`chosen` set exactly when closed, and its solutions carry ids equal to
their position plus one. -/
def ProblemInv (a : Addr) (pid : Nat) (p : Problem) : Prop :=
  p.owner = a ∧ p.id = pid ∧
  (p.chosen.isSome ↔ p.«open» = false) ∧
  (∀ i (h : i < p.solutions.length), (p.solutions.get ⟨i, h⟩).id = i + 1)

/-- Per-registry invariant: the counter started at 1 and the keys present
are exactly `1 ≤ pid < next_problem_id` (so the counter strictly
dominates every key and there are no gaps), and every stored problem
satisfies `ProblemInv`. -/
def RegistryInv (a : Addr) (reg : Registry) : Prop :=
  1 ≤ reg.next_problem_id ∧
  (∀ pid, (reg.problems pid).isSome ↔ (1 ≤ pid ∧ pid < reg.next_problem_id)) ∧
  (∀ pid p, reg.problems pid = some p → ProblemInv a pid p)

/-- Global invariant: every published registry is well-formed. -/
def Inv (s : GlobalState) : Prop :=
  ∀ a reg, s.registries a = some reg → RegistryInv a reg

/-- Spec-side description of a successful `release_reward` (§4.5 of the
specification): exactly `bounty_octas` moves from the owner's balance to
the solver recorded in the first solution matching `solution_id`, the
problem is closed with `chosen` recording the choice, and nothing else —
no other balance, registry, problem, or the counter — changes. -/
def ReleaseOkEffects (s : GlobalState) (owner : Addr)
    (problem_id solution_id : Nat) (s1 : GlobalState) : Prop :=
  ∃ reg p v,
    s.registries owner = some reg ∧ reg.problems problem_id = some p ∧
    p.«open» = true ∧
    firstSolver solution_id p.solutions = some v ∧ v ≠ owner ∧
    p.bounty_octas ≤ s.balances owner ∧
    s1.balances owner = s.balances owner - p.bounty_octas ∧
    s1.balances v = s.balances v + p.bounty_octas ∧
    (∀ x, x ≠ owner → x ≠ v → s1.balances x = s.balances x) ∧
    (∀ x, x ≠ owner → s1.registries x = s.registries x) ∧
    ∃ reg1, s1.registries owner = some reg1 ∧
      reg1.next_problem_id = reg.next_problem_id ∧
      (∀ k, k ≠ problem_id → reg1.problems k = reg.problems k) ∧
      reg1.problems problem_id = some { p with «open» := false, chosen := some solution_id }

/-! ## Concrete demonstration states

`demoS1` is the state after account `0` (call it A) creates problem 1
with bounty 5; `demoS2` additionally has A's own solution 1 on it;
`demoS3` additionally has one vote on that solution.  All are reachable
from the genesis state in which every account holds 100 octas. -/

def demoBal : Addr → Nat := fun _ => 100

def demoS0 : GlobalState := initState demoBal

def demoS1 : GlobalState :=
  ((create_problem demoS0 0 [1] [2] [3] 5).toOption).getD demoS0

def demoS2 : GlobalState :=
  ((add_solution demoS1 0 1 0 [4]).toOption).getD demoS1

def demoS3 : GlobalState :=
  ((vote_solution demoS2 0 1 1).toOption).getD demoS2

/-- The empty registry `ensure_registry` publishes. -/
def emptyRegistry : Registry := { next_problem_id := 1, problems := fun _ => none }

/-- Placeholder problem for total projections in concrete statements. -/
def dfltProblem : Problem :=
  { id := 0, owner := 0, cid := [], lat := [], lng := [], bounty_octas := 0,
    «open» := false, solutions := [], chosen := none }

def demoReg1 : Registry := (demoS1.registries 0).getD emptyRegistry

def demoProb1 : Problem := (demoReg1.problems 1).getD dfltProblem

def demoReg2 : Registry := (demoS2.registries 0).getD emptyRegistry

def demoProb2 : Problem := (demoReg2.problems 1).getD dfltProblem

def demoReg3 : Registry := (demoS3.registries 0).getD emptyRegistry

def demoProb3 : Problem := (demoReg3.problems 1).getD dfltProblem

/-- A hand-crafted state: account 0 owns the open problem 1 with bounty
7 whose sole solution 1 credits account 3; every balance is 10.  The
entry functions cannot produce a solution whose solver differs from the
registry owner (`add_solution` forces `solver_addr == caller`), so this
state exercises the success path of `release_reward`, which needs one. -/
def xProblem : Problem :=
  { id := 1, owner := 0, cid := [9], lat := [7], lng := [7], bounty_octas := 7,
    «open» := true, solutions := [{ id := 1, solver := 3, cid := [8], votes := 2 }],
    chosen := none }

def xReg : Registry :=
  { next_problem_id := 2, problems := fun k => if k = 1 then some xProblem else none }

def xState : GlobalState :=
  { registries := fun a => if a = 0 then some xReg else none, balances := fun _ => 10 }

/-- `xState` with every balance 3 < bounty 7: the transfer must fail. -/
def xPoor : GlobalState := { xState with balances := fun _ => 3 }

def xS1 : GlobalState := ((release_reward xState 0 1 1).toOption).getD xState

/-- A hand-crafted state holding a closed problem: account 0 owns the
closed problem 1 (`chosen = some 1`). -/
def cProblem : Problem :=
  { id := 1, owner := 0, cid := [9], lat := [], lng := [], bounty_octas := 7,
    «open» := false, solutions := [{ id := 1, solver := 3, cid := [8], votes := 2 }],
    chosen := some 1 }

def cReg : Registry :=
  { next_problem_id := 2, problems := fun k => if k = 1 then some cProblem else none }

def cState : GlobalState :=
  { registries := fun a => if a = 0 then some cReg else none, balances := fun _ => 10 }

def cS1 : GlobalState := ((create_problem cState 1 [] [] [] 0).toOption).getD cState

example : create_problem demoS0 0 [1] [2] [3] 5 = .ok demoS1 := rfl
example : add_solution demoS1 0 1 0 [4] = .ok demoS2 := rfl
example : vote_solution demoS2 0 1 1 = .ok demoS3 := rfl
example : add_solution demoS1 1 1 1 [4] = .error .missingRegistry := rfl
example : vote_solution demoS2 2 1 1 = .error .missingRegistry := rfl
example : release_reward demoS2 0 1 1 = .error (.abortCode 7) := rfl
example : (lookupProb demoS2 0 1).map (fun p => p.solutions) =
    some [{ id := 1, solver := 0, cid := [4], votes := 0 }] := rfl
example : (lookupProb demoS3 0 1).map (fun p => p.solutions) =
    some [{ id := 1, solver := 0, cid := [4], votes := 1 }] := rfl
example : release_reward xState 0 1 1 = .ok xS1 := rfl
example : xS1.balances 0 = 3 ∧ xS1.balances 3 = 17 := ⟨rfl, rfl⟩
example : release_reward xPoor 0 1 1 = .error .insufficientBalance := rfl
example : release_reward cState 0 1 1 = .error (.abortCode 6) := rfl
example : create_problem cState 1 [] [] [] 0 = .ok cS1 := rfl

/-! ## Lemmas about the two scan loops -/

theorem voteFirst_eq_none {sid : Nat} {l : List Solution} :
    voteFirst sid l = none ↔ ∀ x ∈ l, x.id ≠ sid := by
  induction l with
  | nil => simp [voteFirst]
  | cons sol rest ih =>
    by_cases hid : sol.id = sid
    · simp [voteFirst, hid]
    · cases hr : voteFirst sid rest with
      | none =>
          simp only [voteFirst, if_neg hid, hr, List.mem_cons, true_iff]
          intro x hx
          rcases hx with hx | hx
          · subst hx; exact hid
          · exact ih.mp hr x hx
      | some rest1 =>
          simp only [voteFirst, if_neg hid, hr, List.mem_cons]
          constructor
          · intro hc; cases hc
          · intro hall
            have : voteFirst sid rest = none :=
              ih.mpr (fun x hx => hall x (Or.inr hx))
            rw [hr] at this
            cases this

theorem voteFirst_eq_some {sid : Nat} {l l1 : List Solution}
    (h : voteFirst sid l = some l1) :
    ∃ i, ∃ hi : i < l.length,
      (l.get ⟨i, hi⟩).id = sid ∧
      (∀ j (hj : j < l.length), j < i → (l.get ⟨j, hj⟩).id ≠ sid) ∧
      l1 = l.set i { l.get ⟨i, hi⟩ with votes := (l.get ⟨i, hi⟩).votes + 1 } := by
  induction l generalizing l1 with
  | nil => simp [voteFirst] at h
  | cons sol rest ih =>
    by_cases hid : sol.id = sid
    · refine ⟨0, by simp, hid, ?_, ?_⟩
      · intro j hj hj0; omega
      · simp only [voteFirst, if_pos hid] at h
        exact (Option.some.inj h).symm
    · simp only [voteFirst, if_neg hid] at h
      cases hr : voteFirst sid rest with
      | none => rw [hr] at h; cases h
      | some rest1 =>
          rw [hr] at h
          obtain ⟨i, hi, h1, h2, h3⟩ := ih hr
          refine ⟨i + 1, Nat.succ_lt_succ hi, h1, ?_, ?_⟩
          · intro j hj hji
            cases j with
            | zero => exact hid
            | succ j0 =>
                exact h2 j0 (Nat.lt_of_succ_lt_succ hj) (Nat.lt_of_succ_lt_succ hji)
          · have := Option.some.inj h
            rw [← this, h3]
            rfl

theorem firstSolver_eq_none {sid : Nat} {l : List Solution} :
    firstSolver sid l = none ↔ ∀ x ∈ l, x.id ≠ sid := by
  induction l with
  | nil => simp [firstSolver]
  | cons sol rest ih =>
    by_cases hid : sol.id = sid
    · simp [firstSolver, hid]
    · simp only [firstSolver, if_neg hid, List.mem_cons]
      rw [ih]
      constructor
      · intro hall x hx
        rcases hx with hx | hx
        · subst hx; exact hid
        · exact hall x hx
      · intro hall x hx
        exact hall x (Or.inr hx)

theorem setRegistry_same (f : Addr → Option Registry) (a : Addr) (r : Registry) :
    setRegistry f a r a = some r := by
  simp [setRegistry]

theorem setRegistry_other (f : Addr → Option Registry) (a : Addr) (r : Registry)
    {x : Addr} (h : x ≠ a) : setRegistry f a r x = f x := by
  simp [setRegistry, h]

theorem setProblem_same (t : Nat → Option Problem) (k : Nat) (p : Problem) :
    setProblem t k p k = some p := by
  simp [setProblem]

theorem setProblem_other (t : Nat → Option Problem) (k : Nat) (p : Problem)
    {x : Nat} (h : x ≠ k) : setProblem t k p x = t x := by
  simp [setProblem, h]

theorem create_problem_ok {s : GlobalState} {a : Addr} {c l g : Bytes} {b : Nat}
    {s1 : GlobalState} (h : create_problem s a c l g b = .ok s1) :
    lookupProb s a (nextId s a) = none ∧
    s1.balances = s.balances ∧
    (∀ x, x ≠ a → s1.registries x = s.registries x) ∧
    ∃ reg1, s1.registries a = some reg1 ∧
      reg1.next_problem_id = nextId s a + 1 ∧
      reg1.problems (nextId s a) =
        some { id := nextId s a, owner := a, cid := c, lat := l, lng := g,
               bounty_octas := b, «open» := true, solutions := [], chosen := none } ∧
      ∀ k, k ≠ nextId s a → reg1.problems k = lookupProb s a k := by
  cases hreg : s.registries a with
  | none =>
      simp [create_problem, ensure_registry, hreg, setRegistry_same] at h
      subst h
      refine ⟨by simp [lookupProb, hreg], rfl, ?_, ?_⟩
      · intro x hx
        simp [setRegistry_other _ _ _ hx, hreg]
      · refine ⟨_, setRegistry_same _ _ _, ?_, ?_, ?_⟩
        · simp [nextId, hreg]
        · simp [nextId, hreg, setProblem_same]
        · intro k hk
          simp only [nextId, hreg] at hk
          simp [setProblem_other _ _ _ hk, lookupProb, hreg]
  | some reg =>
      cases hdup : reg.problems reg.next_problem_id with
      | some q =>
          simp [create_problem, ensure_registry, hreg, hdup] at h
      | none =>
          simp [create_problem, ensure_registry, hreg, hdup] at h
          subst h
          refine ⟨by simp [lookupProb, hreg, nextId, hdup], rfl, ?_, ?_⟩
          · intro x hx
            simp [setRegistry_other _ _ _ hx]
          · refine ⟨_, setRegistry_same _ _ _, ?_, ?_, ?_⟩
            · simp [nextId, hreg]
            · simp [nextId, hreg, setProblem_same]
            · intro k hk
              simp only [nextId, hreg] at hk
              simp [setProblem_other _ _ _ hk, lookupProb, hreg]

theorem firstSolver_eq_some {sid : Nat} {l : List Solution} {v : Addr}
    (h : firstSolver sid l = some v) :
    ∃ x ∈ l, x.id = sid ∧ x.solver = v := by
  induction l with
  | nil => simp [firstSolver] at h
  | cons sol rest ih =>
    by_cases hid : sol.id = sid
    · simp only [firstSolver, if_pos hid] at h
      exact ⟨sol, List.mem_cons_self _ _, hid, Option.some.inj h⟩
    · simp only [firstSolver, if_neg hid] at h
      obtain ⟨x, hx, h1, h2⟩ := ih h
      exact ⟨x, List.mem_cons_of_mem _ hx, h1, h2⟩

/-! ## Inversion and equation lemmas for the entry functions -/

theorem create_problem_succeeds (s : GlobalState) (a : Addr) (c l g : Bytes) (b : Nat)
    (hfresh : lookupProb s a (nextId s a) = none) :
    ∃ s1, create_problem s a c l g b = .ok s1 := by
  cases hc : create_problem s a c l g b with
  | ok s1 => exact ⟨s1, rfl⟩
  | error e =>
      exfalso
      cases hreg : s.registries a with
      | none => simp [create_problem, ensure_registry, hreg, setRegistry_same] at hc
      | some reg =>
          have hdup : reg.problems reg.next_problem_id = none := by
            simpa [lookupProb, nextId, hreg] using hfresh
          simp [create_problem, ensure_registry, hreg, hdup] at hc

theorem add_solution_ok {s : GlobalState} {acct : Addr} {pid : Nat}
    {solver : Addr} {cid : Bytes} {s1 : GlobalState}
    (h : add_solution s acct pid solver cid = .ok s1) :
    ∃ reg p, s.registries acct = some reg ∧ reg.problems pid = some p ∧
      p.«open» = true ∧ solver = acct ∧
      s1.balances = s.balances ∧
      (∀ x, x ≠ acct → s1.registries x = s.registries x) ∧
      ∃ reg1, s1.registries acct = some reg1 ∧
        reg1.next_problem_id = reg.next_problem_id ∧
        (∀ k, k ≠ pid → reg1.problems k = reg.problems k) ∧
        reg1.problems pid =
          some { p with solutions := p.solutions ++
            [{ id := p.solutions.length + 1, solver := solver, cid := cid, votes := 0 }] } := by
  cases hreg : s.registries acct with
  | none => simp [add_solution, hreg] at h
  | some reg =>
      cases hp : reg.problems pid with
      | none => simp [add_solution, hreg, hp] at h
      | some p =>
          cases hopen : p.«open» with
          | false => simp [add_solution, hreg, hp, hopen] at h
          | true =>
              by_cases hsolver : solver = acct
              · simp [add_solution, hreg, hp, hopen, hsolver] at h
                subst h
                refine ⟨reg, p, rfl, hp, hopen, hsolver, rfl, ?_, ?_⟩
                · intro x hx
                  simp [setRegistry_other _ _ _ hx]
                · refine ⟨_, setRegistry_same _ _ _, rfl, ?_, ?_⟩
                  · intro k hk
                    simp [setProblem_other _ _ _ hk]
                  · simp [setProblem_same, hsolver, hopen]
              · simp [add_solution, hreg, hp, hopen, hsolver] at h

theorem add_solution_eq_ok {s : GlobalState} {acct : Addr} {pid : Nat}
    {solver : Addr} {cid : Bytes} {reg : Registry} {p : Problem}
    (hreg : s.registries acct = some reg) (hp : reg.problems pid = some p)
    (hopen : p.«open» = true) (hsolver : solver = acct) :
    ∃ s1, add_solution s acct pid solver cid = .ok s1 := by
  simp [add_solution, hreg, hp, hopen, hsolver]

theorem runAdd_fail_missing {s : GlobalState} {acct : Addr} {pid : Nat}
    {solver : Addr} {cid : Bytes} (h : lookupProb s acct pid = none) :
    runAdd s acct pid solver cid = (s, false) := by
  cases hreg : s.registries acct with
  | none => simp [runAdd, add_solution, hreg]
  | some reg =>
      have hp : reg.problems pid = none := by simpa [lookupProb, hreg] using h
      simp [runAdd, add_solution, hreg, hp]

theorem runAdd_fail_closed {s : GlobalState} {acct : Addr} {pid : Nat}
    {solver : Addr} {cid : Bytes} {reg : Registry} {p : Problem}
    (hreg : s.registries acct = some reg) (hp : reg.problems pid = some p)
    (hopen : p.«open» = false) :
    runAdd s acct pid solver cid = (s, false) := by
  simp [runAdd, add_solution, hreg, hp, hopen]

theorem runAdd_fail_solver {s : GlobalState} {acct : Addr} {pid : Nat}
    {solver : Addr} {cid : Bytes} {reg : Registry} {p : Problem}
    (hreg : s.registries acct = some reg) (hp : reg.problems pid = some p)
    (hsolver : solver ≠ acct) :
    runAdd s acct pid solver cid = (s, false) := by
  cases hopen : p.«open» with
  | false => simp [runAdd, add_solution, hreg, hp, hopen]
  | true => simp [runAdd, add_solution, hreg, hp, hopen, hsolver]

theorem vote_solution_ok {s : GlobalState} {voter : Addr} {pid sid : Nat}
    {s1 : GlobalState} (h : vote_solution s voter pid sid = .ok s1) :
    ∃ reg p sols, s.registries voter = some reg ∧ reg.problems pid = some p ∧
      p.«open» = true ∧ voteFirst sid p.solutions = some sols ∧
      s1.balances = s.balances ∧
      (∀ x, x ≠ voter → s1.registries x = s.registries x) ∧
      ∃ reg1, s1.registries voter = some reg1 ∧
        reg1.next_problem_id = reg.next_problem_id ∧
        (∀ k, k ≠ pid → reg1.problems k = reg.problems k) ∧
        reg1.problems pid = some { p with solutions := sols } := by
  cases hreg : s.registries voter with
  | none => simp [vote_solution, hreg] at h
  | some reg =>
      cases hp : reg.problems pid with
      | none => simp [vote_solution, hreg, hp] at h
      | some p =>
          cases hopen : p.«open» with
          | false => simp [vote_solution, hreg, hp, hopen] at h
          | true =>
              cases hv : voteFirst sid p.solutions with
              | none => simp [vote_solution, hreg, hp, hopen, hv] at h
              | some sols =>
                  simp [vote_solution, hreg, hp, hopen, hv] at h
                  subst h
                  refine ⟨reg, p, sols, rfl, hp, hopen, hv, rfl, ?_, ?_⟩
                  · intro x hx
                    simp [setRegistry_other _ _ _ hx]
                  · refine ⟨_, setRegistry_same _ _ _, rfl, ?_, ?_⟩
                    · intro k hk
                      simp [setProblem_other _ _ _ hk]
                    · simp [setProblem_same, hopen]

theorem vote_solution_eq_ok {s : GlobalState} {voter : Addr} {pid sid : Nat}
    {reg : Registry} {p : Problem} {sols : List Solution}
    (hreg : s.registries voter = some reg) (hp : reg.problems pid = some p)
    (hopen : p.«open» = true) (hv : voteFirst sid p.solutions = some sols) :
    ∃ s1, vote_solution s voter pid sid = .ok s1 := by
  simp [vote_solution, hreg, hp, hopen, hv]

theorem vote_solution_fail_nomatch {s : GlobalState} {voter : Addr} {pid sid : Nat}
    {reg : Registry} {p : Problem}
    (hreg : s.registries voter = some reg) (hp : reg.problems pid = some p)
    (hopen : p.«open» = true) (hno : ∀ x ∈ p.solutions, x.id ≠ sid) :
    vote_solution s voter pid sid = .error (.abortCode 4) := by
  have hv : voteFirst sid p.solutions = none := voteFirst_eq_none.mpr hno
  simp [vote_solution, hreg, hp, hopen, hv]

theorem release_reward_ok {s : GlobalState} {owner : Addr} {pid sid : Nat}
    {s1 : GlobalState} (h : release_reward s owner pid sid = .ok s1) :
    ∃ reg p v, s.registries owner = some reg ∧ reg.problems pid = some p ∧
      p.owner = owner ∧ p.«open» = true ∧
      firstSolver sid p.solutions = some v ∧ v ≠ owner ∧
      p.bounty_octas ≤ s.balances owner ∧
      s1.balances owner = s.balances owner - p.bounty_octas ∧
      s1.balances v = s.balances v + p.bounty_octas ∧
      (∀ x, x ≠ owner → x ≠ v → s1.balances x = s.balances x) ∧
      (∀ x, x ≠ owner → s1.registries x = s.registries x) ∧
      ∃ reg1, s1.registries owner = some reg1 ∧
        reg1.next_problem_id = reg.next_problem_id ∧
        (∀ k, k ≠ pid → reg1.problems k = reg.problems k) ∧
        reg1.problems pid = some { p with «open» := false, chosen := some sid } := by
  cases hreg : s.registries owner with
  | none => simp [release_reward, hreg] at h
  | some reg =>
      cases hp : reg.problems pid with
      | none => simp [release_reward, hreg, hp] at h
      | some p =>
          by_cases hown : p.owner = owner
          · cases hopen : p.«open» with
            | false => simp [release_reward, hreg, hp, hown, hopen] at h
            | true =>
                cases hv : firstSolver sid p.solutions with
                | none => simp [release_reward, hreg, hp, hown, hopen, hv] at h
                | some v =>
                    by_cases hveq : v = owner
                    · simp [release_reward, hreg, hp, hown, hopen, hv, hveq] at h
                    · by_cases hbal : s.balances owner < p.bounty_octas
                      · simp [release_reward, hreg, hp, hown, hopen, hv, hveq,
                          coinTransfer, hbal] at h
                      · simp [release_reward, hreg, hp, hown, hopen, hv, hveq,
                          coinTransfer, hbal] at h
                        subst h
                        refine ⟨reg, p, v, rfl, hp, hown, hopen, hv, hveq,
                          Nat.le_of_not_lt hbal, ?_, ?_, ?_, ?_, ?_⟩
                        · simp [Ne.symm hveq]
                        · simp [hveq]
                        · intro x hx1 hx2
                          simp [hx1, hx2]
                        · intro x hx
                          simp [setRegistry_other _ _ _ hx]
                        · refine ⟨_, setRegistry_same _ _ _, rfl, ?_, ?_⟩
                          · intro k hk
                            simp [setProblem_other _ _ _ hk]
                          · simp [setProblem_same, hown, hopen]
          · simp [release_reward, hreg, hp, hown] at h

/-! ## The reachability invariant -/

theorem lookupProb_eq {s : GlobalState} {a : Addr} {reg : Registry}
    (h : s.registries a = some reg) (pid : Nat) :
    lookupProb s a pid = reg.problems pid := by
  simp [lookupProb, h]

theorem nextId_pos {s : GlobalState} (hinv : Inv s) (a : Addr) :
    1 ≤ nextId s a := by
  cases hreg : s.registries a with
  | none => simp [nextId, hreg]
  | some reg =>
      have := (hinv a reg hreg).1
      simpa [nextId, hreg] using this

theorem inv_keys {s : GlobalState} (hinv : Inv s) (a : Addr) (pid : Nat) :
    (lookupProb s a pid).isSome ↔ (1 ≤ pid ∧ pid < nextId s a) := by
  cases hreg : s.registries a with
  | none =>
      simp only [lookupProb, nextId, hreg]
      simp
      omega
  | some reg =>
      have := (hinv a reg hreg).2.1 pid
      simpa [lookupProb, nextId, hreg] using this

theorem inv_prob {s : GlobalState} (hinv : Inv s) {a : Addr} {pid : Nat}
    {p : Problem} (h : lookupProb s a pid = some p) : ProblemInv a pid p := by
  cases hreg : s.registries a with
  | none => simp [lookupProb, hreg] at h
  | some reg =>
      rw [lookupProb_eq hreg] at h
      exact (hinv a reg hreg).2.2 pid p h

theorem solutions_ids_append {l : List Solution} {x : Solution}
    (hl : ∀ i (h : i < l.length), (l.get ⟨i, h⟩).id = i + 1)
    (hx : x.id = l.length + 1) :
    ∀ i (h : i < (l ++ [x]).length), ((l ++ [x]).get ⟨i, h⟩).id = i + 1 := by
  intro i h
  rcases Nat.lt_or_ge i l.length with hi | hi
  · have : ((l ++ [x]).get ⟨i, h⟩) = l.get ⟨i, hi⟩ := by
      simp [List.getElem_append, hi]
    rw [this]
    exact hl i hi
  · have hlen : i = l.length := by
      simp only [List.length_append, List.length_singleton] at h
      omega
    subst hlen
    have : ((l ++ [x]).get ⟨l.length, h⟩) = x := by simp
    rw [this, hx]

theorem solutions_ids_set {l : List Solution} {i : Nat} {x : Solution}
    (hl : ∀ j (h : j < l.length), (l.get ⟨j, h⟩).id = j + 1)
    (hi : i < l.length) (hx : x.id = (l.get ⟨i, hi⟩).id) :
    ∀ j (h : j < (l.set i x).length), ((l.set i x).get ⟨j, h⟩).id = j + 1 := by
  intro j h
  have hj : j < l.length := by simpa using h
  by_cases hji : j = i
  · subst hji
    have : ((l.set j x).get ⟨j, h⟩) = x := by simp
    rw [this, hx]
    exact hl j hj
  · have : ((l.set i x).get ⟨j, h⟩) = l.get ⟨j, hj⟩ := by
      simp [List.getElem_set, Ne.symm hji]
    rw [this]
    exact hl j hj

theorem inv_init (bal : Addr → Nat) : Inv (initState bal) := by
  intro a reg hreg
  simp [initState] at hreg

theorem inv_create {s s1 : GlobalState} {acct : Addr} {c l g : Bytes} {b : Nat}
    (hinv : Inv s) (h : create_problem s acct c l g b = .ok s1) : Inv s1 := by
  obtain ⟨hfresh, _, hother, reg1, hA, hN, hP, hK⟩ := create_problem_ok h
  intro a reg hreg
  by_cases hx : a = acct
  · subst hx
    rw [hA] at hreg
    obtain rfl := Option.some.inj hreg
    refine ⟨by omega, ?_, ?_⟩
    · intro pid
      by_cases hpid : pid = nextId s a
      · subst hpid
        rw [hP]
        have h1 := nextId_pos hinv a
        simp
        omega
      · rw [hK pid hpid]
        rw [inv_keys hinv a pid, hN]
        omega
    · intro pid p hp
      by_cases hpid : pid = nextId s a
      · subst hpid
        rw [hP] at hp
        obtain rfl := Option.some.inj hp
        refine ⟨rfl, rfl, by simp, ?_⟩
        intro i hi
        simp at hi
      · rw [hK pid hpid] at hp
        exact inv_prob hinv hp
  · rw [hother a hx] at hreg
    exact hinv a reg hreg

theorem inv_addSol {s s1 : GlobalState} {acct : Addr} {pid : Nat}
    {solver : Addr} {cid : Bytes}
    (hinv : Inv s) (h : add_solution s acct pid solver cid = .ok s1) : Inv s1 := by
  obtain ⟨reg0, p0, hreg0, hp0, hopen0, hsolver0, _, hother, reg1, hA, hN, hK, hP⟩ :=
    add_solution_ok h
  intro a reg hreg
  by_cases hx : a = acct
  · subst hx
    rw [hA] at hreg
    obtain rfl := Option.some.inj hreg
    obtain ⟨hown0, hid0, hch0, hids0⟩ := (hinv a reg0 hreg0).2.2 pid p0 hp0
    refine ⟨by rw [hN]; exact (hinv a reg0 hreg0).1, ?_, ?_⟩
    · intro k
      by_cases hk : k = pid
      · subst hk
        rw [hP, hN]
        have := ((hinv a reg0 hreg0).2.1 k).mp (by rw [hp0]; rfl)
        simpa using this
      · rw [hK k hk, hN]
        exact (hinv a reg0 hreg0).2.1 k
    · intro k p hp
      by_cases hk : k = pid
      · subst hk
        rw [hP] at hp
        obtain rfl := Option.some.inj hp
        refine ⟨hown0, hid0, hch0, ?_⟩
        exact solutions_ids_append hids0 rfl
      · rw [hK k hk] at hp
        exact (hinv a reg0 hreg0).2.2 k p hp
  · rw [hother a hx] at hreg
    exact hinv a reg hreg

theorem inv_vote {s s1 : GlobalState} {voter : Addr} {pid sid : Nat}
    (hinv : Inv s) (h : vote_solution s voter pid sid = .ok s1) : Inv s1 := by
  obtain ⟨reg0, p0, sols, hreg0, hp0, hopen0, hv, _, hother, reg1, hA, hN, hK, hP⟩ :=
    vote_solution_ok h
  intro a reg hreg
  by_cases hx : a = voter
  · subst hx
    rw [hA] at hreg
    obtain rfl := Option.some.inj hreg
    obtain ⟨hown0, hid0, hch0, hids0⟩ := (hinv a reg0 hreg0).2.2 pid p0 hp0
    obtain ⟨i, hi, hmatch, _, hset⟩ := voteFirst_eq_some hv
    refine ⟨by rw [hN]; exact (hinv a reg0 hreg0).1, ?_, ?_⟩
    · intro k
      by_cases hk : k = pid
      · subst hk
        rw [hP, hN]
        have := ((hinv a reg0 hreg0).2.1 k).mp (by rw [hp0]; rfl)
        simpa using this
      · rw [hK k hk, hN]
        exact (hinv a reg0 hreg0).2.1 k
    · intro k p hp
      by_cases hk : k = pid
      · subst hk
        rw [hP] at hp
        obtain rfl := Option.some.inj hp
        refine ⟨hown0, hid0, hch0, ?_⟩
        rw [hset]
        exact solutions_ids_set hids0 hi rfl
      · rw [hK k hk] at hp
        exact (hinv a reg0 hreg0).2.2 k p hp
  · rw [hother a hx] at hreg
    exact hinv a reg hreg

theorem inv_release {s s1 : GlobalState} {owner : Addr} {pid sid : Nat}
    (hinv : Inv s) (h : release_reward s owner pid sid = .ok s1) : Inv s1 := by
  obtain ⟨reg0, p0, v, hreg0, hp0, hown0, hopen0, hv, hvne, hbal,
    _, _, _, hother, reg1, hA, hN, hK, hP⟩ := release_reward_ok h
  intro a reg hreg
  by_cases hx : a = owner
  · subst hx
    rw [hA] at hreg
    obtain rfl := Option.some.inj hreg
    obtain ⟨_, hid0, _, hids0⟩ := (hinv a reg0 hreg0).2.2 pid p0 hp0
    refine ⟨by rw [hN]; exact (hinv a reg0 hreg0).1, ?_, ?_⟩
    · intro k
      by_cases hk : k = pid
      · subst hk
        rw [hP, hN]
        have := ((hinv a reg0 hreg0).2.1 k).mp (by rw [hp0]; rfl)
        simpa using this
      · rw [hK k hk, hN]
        exact (hinv a reg0 hreg0).2.1 k
    · intro k p hp
      by_cases hk : k = pid
      · subst hk
        rw [hP] at hp
        obtain rfl := Option.some.inj hp
        exact ⟨hown0, hid0, by simp, hids0⟩
      · rw [hK k hk] at hp
        exact (hinv a reg0 hreg0).2.2 k p hp
  · rw [hother a hx] at hreg
    exact hinv a reg hreg

theorem inv_step {s s1 : GlobalState} (hinv : Inv s) (hs : Step s s1) : Inv s1 := by
  cases hs with
  | create acct c l g b s1 h => exact inv_create hinv h
  | addSol acct pid solver cid s1 h => exact inv_addSol hinv h
  | vote voter pid sid s1 h => exact inv_vote hinv h
  | release owner pid sid s1 h => exact inv_release hinv h

theorem reachable_inv {s : GlobalState} (hr : Reachable s) : Inv s := by
  induction hr with
  | init bal => exact inv_init bal
  | step hr hs ih => exact inv_step ih hs

theorem lookupProb_ext {s s1 : GlobalState} {a : Addr}
    (h : s1.registries a = s.registries a) (pid : Nat) :
    lookupProb s1 a pid = lookupProb s a pid := by
  unfold lookupProb
  rw [h]

/-- Once a problem is closed it stays closed (and present) across every
successful transaction: `create_problem` only inserts a fresh key,
`add_solution` and `vote_solution` require the problem they touch to be
open, and `release_reward` only ever sets `open` to `false`. -/
theorem step_preserves_closed {s s1 : GlobalState} (hs : Step s s1) {a : Addr}
    {pid : Nat} {p : Problem} (hp : lookupProb s a pid = some p)
    (hcl : p.«open» = false) :
    ∃ p1, lookupProb s1 a pid = some p1 ∧ p1.«open» = false := by
  cases hs with
  | create acct c l g b s1 h =>
      obtain ⟨hfresh, _, hother, reg1, hA, hN, hP, hK⟩ := create_problem_ok h
      by_cases hx : a = acct
      · subst hx
        by_cases hpid : pid = nextId s a
        · subst hpid
          rw [hfresh] at hp
          cases hp
        · refine ⟨p, ?_, hcl⟩
          rw [lookupProb_eq hA, hK pid hpid]
          exact hp
      · exact ⟨p, by rw [lookupProb_ext (hother a hx)]; exact hp, hcl⟩
  | addSol acct pid0 solver cid s1 h =>
      obtain ⟨reg0, p0, hreg0, hp0, hopen0, _, _, hother, reg1, hA, hN, hK, hP⟩ :=
        add_solution_ok h
      by_cases hx : a = acct
      · subst hx
        by_cases hpid : pid = pid0
        · subst hpid
          rw [lookupProb_eq hreg0, hp0] at hp
          obtain rfl := Option.some.inj hp
          rw [hopen0] at hcl
          cases hcl
        · refine ⟨p, ?_, hcl⟩
          rw [lookupProb_eq hA, hK pid hpid, ← lookupProb_eq hreg0]
          exact hp
      · exact ⟨p, by rw [lookupProb_ext (hother a hx)]; exact hp, hcl⟩
  | vote voter pid0 sid0 s1 h =>
      obtain ⟨reg0, p0, sols, hreg0, hp0, hopen0, hv, _, hother, reg1, hA, hN, hK, hP⟩ :=
        vote_solution_ok h
      by_cases hx : a = voter
      · subst hx
        by_cases hpid : pid = pid0
        · subst hpid
          rw [lookupProb_eq hreg0, hp0] at hp
          obtain rfl := Option.some.inj hp
          rw [hopen0] at hcl
          cases hcl
        · refine ⟨p, ?_, hcl⟩
          rw [lookupProb_eq hA, hK pid hpid, ← lookupProb_eq hreg0]
          exact hp
      · exact ⟨p, by rw [lookupProb_ext (hother a hx)]; exact hp, hcl⟩
  | release owner pid0 sid0 s1 h =>
      obtain ⟨reg0, p0, v, hreg0, hp0, hown0, hopen0, hv, hvne, hbal,
        _, _, _, hother, reg1, hA, hN, hK, hP⟩ := release_reward_ok h
      by_cases hx : a = owner
      · subst hx
        by_cases hpid : pid = pid0
        · subst hpid
          rw [lookupProb_eq hreg0, hp0] at hp
          obtain rfl := Option.some.inj hp
          rw [hopen0] at hcl
          cases hcl
        · refine ⟨p, ?_, hcl⟩
          rw [lookupProb_eq hA, hK pid hpid, ← lookupProb_eq hreg0]
          exact hp
      · exact ⟨p, by rw [lookupProb_ext (hother a hx)]; exact hp, hcl⟩

theorem reachable_demoS1 : Reachable demoS1 :=
  Reachable.step (Reachable.init demoBal)
    (Step.create demoS0 0 [1] [2] [3] 5 demoS1 rfl)

theorem reachable_demoS2 : Reachable demoS2 :=
  Reachable.step reachable_demoS1
    (Step.addSol demoS1 0 1 0 [4] demoS2 rfl)

theorem reachable_demoS3 : Reachable demoS3 :=
  Reachable.step reachable_demoS2
    (Step.vote demoS2 0 1 1 demoS3 rfl)

theorem release_reward_fail_closed {s : GlobalState} {owner : Addr} {pid : Nat}
    (sid : Nat) {reg : Registry} {p : Problem}
    (hreg : s.registries owner = some reg) (hp : reg.problems pid = some p)
    (hown : p.owner = owner) (hopen : p.«open» = false) :
    release_reward s owner pid sid = .error (.abortCode 6) := by
  simp [release_reward, hreg, hp, hown, hopen]

theorem release_reward_no_code5 {s : GlobalState} {owner : Addr} {pid sid : Nat}
    {e : MoveErr} (hinv : Inv s) (h : release_reward s owner pid sid = .error e) :
    e ≠ .abortCode 5 := by
  cases hreg : s.registries owner with
  | none =>
      simp [release_reward, hreg] at h
      subst h; decide
  | some reg =>
      cases hp : reg.problems pid with
      | none =>
          simp [release_reward, hreg, hp] at h
          subst h; decide
      | some p =>
          have hown : p.owner = owner := ((hinv owner reg hreg).2.2 pid p hp).1
          cases hopen : p.«open» with
          | false =>
              simp [release_reward, hreg, hp, hown, hopen] at h
              subst h; decide
          | true =>
              cases hv : firstSolver sid p.solutions with
              | none =>
                  simp [release_reward, hreg, hp, hown, hopen, hv] at h
                  subst h; decide
              | some v =>
                  by_cases hveq : v = owner
                  · simp [release_reward, hreg, hp, hown, hopen, hv, hveq] at h
                    subst h; decide
                  · by_cases hbal : s.balances owner < p.bounty_octas
                    · simp [release_reward, hreg, hp, hown, hopen, hv, hveq,
                        coinTransfer, hbal] at h
                      subst h; decide
                    · simp [release_reward, hreg, hp, hown, hopen, hv, hveq,
                        coinTransfer, hbal] at h

/-! ## Claim theorems -/

/-- **C1** (code bug in `release_reward`): in the reachable state
`demoS2` — account 0 created problem 1 (bounty 5) and submitted
solution 1 crediting itself — the owner calls
`release_reward(0, 1, 1)` on the open problem; solution 1 exists and
the balance (100) covers the bounty, yet the call aborts with code 7,
the "solution not found" code.  The sentinel of lines 100–111
(`solver_found` initialised to the caller's own address, checked with
`assert!(solver_found != addr, 7)`) conflates "no solution matched"
with "the matched solution's solver equals the owner", so the claimed
equivalence "NotFound iff no Solution carries solution_id" fails in the
right-to-left direction, contradicting the code's own
`// must find a solution` comment. -/
theorem C1_release_notfound_despite_existing_solution :
    Reachable demoS2 ∧
    (lookupProb demoS2 0 1).map
      (fun p => (p.owner, p.«open», p.bounty_octas,
                 p.solutions.map (fun x => (x.id, x.solver)))) =
      some (0, true, 5, [(1, 0)]) ∧
    demoS2.balances 0 = 100 ∧
    release_reward demoS2 0 1 1 = .error (.abortCode 7) :=
  ⟨reachable_demoS2, rfl, rfl, rfl⟩

/-- **C2** (counterexample): the §8 multi-party sequence fails on the
code.  After account 0 (A) creates problem 1, the distinct account 1
(B) cannot run `add_solution(caller=B, problem=1, solver=B)` — the
entry resolves the `Registry` under the *caller's* address (line 63),
where none exists, so it aborts instead of succeeding; likewise the
distinct account 2 (C) cannot vote on A's problem. -/
theorem C2_multiparty_example_fails :
    create_problem demoS0 0 [1] [2] [3] 5 = .ok demoS1 ∧
    (1 : Addr) ≠ 0 ∧ (2 : Addr) ≠ 0 ∧
    add_solution demoS1 1 1 1 [4] = .error .missingRegistry ∧
    vote_solution demoS2 2 1 1 = .error .missingRegistry :=
  ⟨rfl, by decide, by decide, rfl, rfl⟩

/-- **C2 amended**: after `create_problem` by A yields problem 1, a
distinct caller B's `add_solution(caller=B, problem=1, solver=B)`
aborts (each entry resolves the Registry at the caller's own address,
and B has none), as does a distinct C's vote; the stated effects do
hold when A itself plays every role: `add_solution(caller=A, problem=1,
solver=A)` yields `solutions = [{id 1, solver A, votes 0}]` and
`vote_solution(caller=A, problem=1, solution=1)` then yields
`votes = 1`. -/
theorem C2_amended_single_account_sequence :
    add_solution demoS1 1 1 1 [4] = .error .missingRegistry ∧
    vote_solution demoS2 2 1 1 = .error .missingRegistry ∧
    add_solution demoS1 0 1 0 [4] = .ok demoS2 ∧
    (lookupProb demoS2 0 1).map
      (fun p => p.solutions.map (fun x => (x.id, x.solver, x.votes))) =
      some [(1, 0, 0)] ∧
    vote_solution demoS2 0 1 1 = .ok demoS3 ∧
    (lookupProb demoS3 0 1).map
      (fun p => p.solutions.map (fun x => (x.id, x.votes))) = some [(1, 1)] :=
  ⟨rfl, rfl, rfl, rfl, rfl, rfl⟩

/-- **C3**: `release_reward` is atomic: a successful call moves exactly
`bounty_octas` from the owner to the matched solution's solver, closes
the problem, sets `chosen`, and changes nothing else
(`ReleaseOkEffects`); any aborting call — in particular whenever the
owner's balance is below the bounty — leaves the observable state
exactly as it was. -/
theorem C3_release_reward_atomic (s : GlobalState) (owner : Addr) (pid sid : Nat) :
    (∀ s1, release_reward s owner pid sid = .ok s1 →
        runRelease s owner pid sid = (s1, true) ∧ ReleaseOkEffects s owner pid sid s1) ∧
    (∀ e, release_reward s owner pid sid = .error e →
        runRelease s owner pid sid = (s, false)) ∧
    (∀ reg p, s.registries owner = some reg → reg.problems pid = some p →
        s.balances owner < p.bounty_octas →
        runRelease s owner pid sid = (s, false)) := by
  refine ⟨?_, ?_, ?_⟩
  · intro s1 h
    refine ⟨by simp [runRelease, h], ?_⟩
    obtain ⟨reg, p, v, h1, h2, _, h4, h5, h6, h7, h8, h9, h10, h11,
      reg1, h12, h13, h14, h15⟩ := release_reward_ok h
    exact ⟨reg, p, v, h1, h2, h4, h5, h6, h7, h8, h9, h10, h11,
      reg1, h12, h13, h14, h15⟩
  · intro e h
    simp [runRelease, h]
  · intro reg p hreg hp hbal
    cases hrel : release_reward s owner pid sid with
    | error e => simp [runRelease, hrel]
    | ok s1 =>
        exfalso
        obtain ⟨reg2, p2, v, h1, h2, _, _, _, _, hle, _⟩ := release_reward_ok hrel
        rw [hreg] at h1
        obtain rfl := Option.some.inj h1
        rw [hp] at h2
        obtain rfl := Option.some.inj h2
        omega

/-- Witness for C3: the success path at the crafted state `xState`
(owner 0 releases bounty 7 to solver 3) and the insufficient-balance
path at `xPoor` (balance 3 < bounty 7). -/
theorem C3_witness :
    (runRelease xState 0 1 1 = (xS1, true) ∧ ReleaseOkEffects xState 0 1 1 xS1) ∧
    runRelease xPoor 0 1 1 = (xPoor, false) :=
  ⟨(C3_release_reward_atomic xState 0 1 1).1 xS1 rfl,
   (C3_release_reward_atomic xPoor 0 1 1).2.2 xReg xProblem rfl rfl (by decide)⟩

/-- **C4**: in every reachable state `chosen` is set iff `open = false`;
the closed state is absorbing — no successful transaction ever reopens
a closed problem — and a further `release_reward` by the owner on a
closed problem always aborts with code 6 (the StateConflict
discriminant), changing nothing. -/
theorem C4_closed_is_terminal (s : GlobalState) :
    (Reachable s → ∀ a pid p, lookupProb s a pid = some p →
        (p.chosen.isSome ↔ p.«open» = false)) ∧
    (∀ s1, Step s s1 → ∀ a pid p, lookupProb s a pid = some p →
        p.«open» = false →
        ∃ p1, lookupProb s1 a pid = some p1 ∧ p1.«open» = false) ∧
    (∀ owner pid sid reg p, s.registries owner = some reg →
        reg.problems pid = some p → p.owner = owner → p.«open» = false →
        release_reward s owner pid sid = .error (.abortCode 6) ∧
        runRelease s owner pid sid = (s, false)) := by
  refine ⟨?_, ?_, ?_⟩
  · intro hr a pid p hp
    exact (inv_prob (reachable_inv hr) hp).2.2.1
  · intro s1 hs a pid p hp hcl
    exact step_preserves_closed hs hp hcl
  · intro owner pid sid reg p hreg hp hown hcl
    have h6 := release_reward_fail_closed sid hreg hp hown hcl
    exact ⟨h6, by simp [runRelease, h6]⟩

/-- Witness for C4: the chosen/open equivalence at the reachable state
`demoS3`, closedness preserved across a `create_problem` step from the
crafted state `cState`, and the code-6 abort of a release on the closed
problem of `cState`. -/
theorem C4_witness :
    (demoProb3.chosen.isSome ↔ demoProb3.«open» = false) ∧
    (∃ p1, lookupProb cS1 0 1 = some p1 ∧ p1.«open» = false) ∧
    release_reward cState 0 1 1 = .error (.abortCode 6) := by
  refine ⟨?_, ?_, ?_⟩
  · exact (C4_closed_is_terminal demoS3).1 reachable_demoS3 0 1 demoProb3 rfl
  · exact (C4_closed_is_terminal cState).2.1 cS1
      (Step.create cState 1 [] [] [] 0 cS1 rfl) 0 1 cProblem rfl rfl
  · exact ((C4_closed_is_terminal cState).2.2 0 1 1 cReg cProblem rfl rfl rfl rfl).1

/-- **C5**: in every reachable state each registry's counter is at
least 1 and strictly dominates every present key — the keys are exactly
`1 ≤ pid < next_problem_id`, so there are no gaps and no reuse; a fresh
owner's first id is 1, and every successful `create_problem` assigns
exactly the current counter as the new problem's id and bumps the
counter by one, so repeated calls yield 1, 2, 3, …. -/
theorem C5_ids_start_at_one_no_gaps (s : GlobalState) (hr : Reachable s) :
    (∀ a reg, s.registries a = some reg →
        1 ≤ reg.next_problem_id ∧
        ∀ pid, (reg.problems pid).isSome ↔ (1 ≤ pid ∧ pid < reg.next_problem_id)) ∧
    (∀ a, s.registries a = none → nextId s a = 1) ∧
    (∀ a c l g b s1, create_problem s a c l g b = .ok s1 →
        lookupProb s a (nextId s a) = none ∧
        (lookupProb s1 a (nextId s a)).map Problem.id = some (nextId s a) ∧
        nextId s1 a = nextId s a + 1) := by
  have hinv := reachable_inv hr
  refine ⟨?_, ?_, ?_⟩
  · intro a reg hreg
    exact ⟨(hinv a reg hreg).1, (hinv a reg hreg).2.1⟩
  · intro a hreg
    simp [nextId, hreg]
  · intro a c l g b s1 h
    obtain ⟨hfresh, _, _, reg1, hA, hN, hP, hK⟩ := create_problem_ok h
    refine ⟨hfresh, ?_, ?_⟩
    · rw [lookupProb_eq hA, hP]
      rfl
    · simp [nextId, hA, hN]

/-- Witness for C5 at the reachable states `demoS3` (key
characterisation) and `demoS0` (fresh owner allocates id 1 and bumps
the counter to 2). -/
theorem C5_witness :
    (1 ≤ demoReg3.next_problem_id ∧
      ((demoReg3.problems 2).isSome ↔ (1 ≤ 2 ∧ 2 < demoReg3.next_problem_id))) ∧
    nextId demoS0 5 = 1 ∧
    (lookupProb demoS1 0 (nextId demoS0 0)).map Problem.id = some (nextId demoS0 0) ∧
    nextId demoS1 0 = nextId demoS0 0 + 1 := by
  have h0 := C5_ids_start_at_one_no_gaps demoS0 (Reachable.init demoBal)
  have h3 := C5_ids_start_at_one_no_gaps demoS3 reachable_demoS3
  refine ⟨⟨(h3.1 0 demoReg3 rfl).1, (h3.1 0 demoReg3 rfl).2 2⟩, h0.2.1 5 rfl, ?_, ?_⟩
  · exact (h0.2.2 0 [1] [2] [3] 5 demoS1 rfl).2.1
  · exact (h0.2.2 0 [1] [2] [3] 5 demoS1 rfl).2.2

/-- **C6**: `vote_solution` on an existing open problem of the caller's
registry: if no solution carries `solution_id` it aborts with code 4
(NotFound) leaving the state exactly as before; if some solution
matches, the scan succeeds and the new solution list is exactly the old
one with the votes of the first matching index incremented by one —
every other solution, problem, registry and balance is untouched. -/
theorem C6_vote_increments_first_match (s : GlobalState) (voter : Addr)
    (pid sid : Nat) (reg : Registry) (p : Problem)
    (hreg : s.registries voter = some reg) (hp : reg.problems pid = some p)
    (hopen : p.«open» = true) :
    ((∀ x ∈ p.solutions, x.id ≠ sid) →
        vote_solution s voter pid sid = .error (.abortCode 4) ∧
        runVote s voter pid sid = (s, false)) ∧
    ((∃ x ∈ p.solutions, x.id = sid) → ∃ sols, voteFirst sid p.solutions = some sols) ∧
    (∀ sols, voteFirst sid p.solutions = some sols →
        ∃ i, ∃ hi : i < p.solutions.length,
          (p.solutions.get ⟨i, hi⟩).id = sid ∧
          (∀ j (hj : j < p.solutions.length), j < i → (p.solutions.get ⟨j, hj⟩).id ≠ sid) ∧
          sols = p.solutions.set i
            { p.solutions.get ⟨i, hi⟩ with votes := (p.solutions.get ⟨i, hi⟩).votes + 1 } ∧
          ∃ s1, vote_solution s voter pid sid = .ok s1 ∧
            runVote s voter pid sid = (s1, true) ∧
            s1.balances = s.balances ∧
            (∀ x, x ≠ voter → s1.registries x = s.registries x) ∧
            ∃ reg1, s1.registries voter = some reg1 ∧
              reg1.next_problem_id = reg.next_problem_id ∧
              (∀ k, k ≠ pid → reg1.problems k = reg.problems k) ∧
              reg1.problems pid = some { p with solutions := sols }) := by
  refine ⟨?_, ?_, ?_⟩
  · intro hno
    have h4 := vote_solution_fail_nomatch hreg hp hopen hno
    exact ⟨h4, by simp [runVote, h4]⟩
  · intro hex
    cases hv : voteFirst sid p.solutions with
    | none =>
        exfalso
        obtain ⟨x, hx, hid⟩ := hex
        exact voteFirst_eq_none.mp hv x hx hid
    | some sols => exact ⟨sols, rfl⟩
  · intro sols hv
    obtain ⟨i, hi, h1, h2, h3⟩ := voteFirst_eq_some hv
    obtain ⟨s1, hs1⟩ := vote_solution_eq_ok hreg hp hopen hv
    obtain ⟨reg0, p0, sols0, hreg0, hp0, _, hv0, hbal, hother,
      reg1, hA, hN, hK, hP⟩ := vote_solution_ok hs1
    rw [hreg] at hreg0
    obtain rfl := Option.some.inj hreg0
    rw [hp] at hp0
    obtain rfl := Option.some.inj hp0
    rw [hv] at hv0
    obtain rfl := Option.some.inj hv0
    exact ⟨i, hi, h1, h2, h3, s1, hs1, by simp [runVote, hs1], hbal, hother,
      reg1, hA, hN, hK, hP⟩

/-- Witness for C6 at the reachable state `demoS2`: voting for the
(present) solution 1 succeeds, and voting for the absent solution 9
aborts with code 4 leaving the state unchanged. -/
theorem C6_witness :
    (vote_solution demoS2 0 1 9 = .error (.abortCode 4) ∧
      runVote demoS2 0 1 9 = (demoS2, false)) ∧
    (∃ s1, vote_solution demoS2 0 1 1 = .ok s1 ∧ runVote demoS2 0 1 1 = (s1, true)) := by
  refine ⟨?_, ?_⟩
  · exact (C6_vote_increments_first_match demoS2 0 1 9 demoReg2 demoProb2
      rfl rfl rfl).1 (by decide)
  · obtain ⟨i, hi, _, _, _, s1, hs1, hrun, _⟩ :=
      (C6_vote_increments_first_match demoS2 0 1 1 demoReg2 demoProb2
        rfl rfl rfl).2.2 [{ id := 1, solver := 0, cid := [4], votes := 1 }] rfl
    exact ⟨s1, hs1, hrun⟩

/-- **C7**: `add_solution`, when the problem exists in the caller's
registry, is open, and the solver argument equals the caller, appends
exactly one solution with `id = length + 1` and `votes = 0`, leaving
every existing solution and all other state untouched; when the
problem is missing, closed, or the solver differs from the caller, the
transaction aborts and the observable state is exactly the pre-state. -/
theorem C7_add_solution_appends (s : GlobalState) (acct : Addr) (pid : Nat)
    (solver : Addr) (cid : Bytes) :
    (∀ reg p, s.registries acct = some reg → reg.problems pid = some p →
        p.«open» = true → solver = acct →
        ∃ s1, add_solution s acct pid solver cid = .ok s1 ∧
          runAdd s acct pid solver cid = (s1, true) ∧
          s1.balances = s.balances ∧
          (∀ x, x ≠ acct → s1.registries x = s.registries x) ∧
          ∃ reg1, s1.registries acct = some reg1 ∧
            reg1.next_problem_id = reg.next_problem_id ∧
            (∀ k, k ≠ pid → reg1.problems k = reg.problems k) ∧
            reg1.problems pid = some { p with solutions := p.solutions ++
              [{ id := p.solutions.length + 1, solver := solver, cid := cid,
                 votes := 0 }] }) ∧
    (lookupProb s acct pid = none → runAdd s acct pid solver cid = (s, false)) ∧
    (∀ reg p, s.registries acct = some reg → reg.problems pid = some p →
        p.«open» = false → runAdd s acct pid solver cid = (s, false)) ∧
    (∀ reg p, s.registries acct = some reg → reg.problems pid = some p →
        solver ≠ acct → runAdd s acct pid solver cid = (s, false)) := by
  refine ⟨?_, ?_, ?_, ?_⟩
  · intro reg p hreg hp hopen hsolver
    obtain ⟨s1, hs1⟩ := add_solution_eq_ok hreg hp hopen hsolver
    obtain ⟨reg0, p0, hreg0, hp0, _, _, hbal, hother, reg1, hA, hN, hK, hP⟩ :=
      add_solution_ok hs1
    rw [hreg] at hreg0
    obtain rfl := Option.some.inj hreg0
    rw [hp] at hp0
    obtain rfl := Option.some.inj hp0
    exact ⟨s1, hs1, by simp [runAdd, hs1], hbal, hother, reg1, hA, hN, hK, hP⟩
  · exact runAdd_fail_missing
  · intro reg p hreg hp hopen
    exact runAdd_fail_closed hreg hp hopen
  · intro reg p hreg hp hsolver
    exact runAdd_fail_solver hreg hp hsolver

/-- Witness for C7 at the reachable state `demoS1`: account 0 appends
its solution to its open problem 1; adding to the absent problem 2
fails, as does crediting the foreign solver 5. -/
theorem C7_witness :
    (∃ s1, add_solution demoS1 0 1 0 [4] = .ok s1 ∧ runAdd demoS1 0 1 0 [4] = (s1, true)) ∧
    runAdd demoS1 0 2 0 [4] = (demoS1, false) ∧
    runAdd demoS1 0 1 5 [4] = (demoS1, false) := by
  refine ⟨?_, ?_, ?_⟩
  · obtain ⟨s1, hs1, hrun, _⟩ := (C7_add_solution_appends demoS1 0 1 0 [4]).1
      demoReg1 demoProb1 rfl rfl rfl rfl
    exact ⟨s1, hs1, hrun⟩
  · exact (C7_add_solution_appends demoS1 0 2 0 [4]).2.1 rfl
  · exact (C7_add_solution_appends demoS1 0 1 5 [4]).2.2.2 demoReg1 demoProb1
      rfl rfl (by decide)

/-- **C8**: `create_problem` never aborts in a reachable state: the
counter strictly dominates every present key, so the duplicate-key
abort of `table::add` is unreachable (and `ensure_registry` rules out a
missing registry); the call's only mutations are the counter increment
and the insertion of the new problem under the caller's address, and
no balance changes. -/
theorem C8_create_never_aborts (s : GlobalState) (hr : Reachable s)
    (a : Addr) (c l g : Bytes) (b : Nat) :
    ∃ s1, create_problem s a c l g b = .ok s1 ∧
      s1.balances = s.balances ∧
      (∀ x, x ≠ a → s1.registries x = s.registries x) ∧
      nextId s1 a = nextId s a + 1 ∧
      (∀ k, k ≠ nextId s a → lookupProb s1 a k = lookupProb s a k) ∧
      lookupProb s1 a (nextId s a) =
        some { id := nextId s a, owner := a, cid := c, lat := l, lng := g,
               bounty_octas := b, «open» := true, solutions := [],
               chosen := none } := by
  have hinv := reachable_inv hr
  have hfresh : lookupProb s a (nextId s a) = none := by
    cases hlk : lookupProb s a (nextId s a) with
    | none => rfl
    | some p =>
        exfalso
        have h2 := (inv_keys hinv a (nextId s a)).mp (by rw [hlk]; rfl)
        omega
  obtain ⟨s1, hs1⟩ := create_problem_succeeds s a c l g b hfresh
  obtain ⟨_, hbal, hother, reg1, hA, hN, hP, hK⟩ := create_problem_ok hs1
  refine ⟨s1, hs1, hbal, hother, by simp [nextId, hA, hN], ?_, ?_⟩
  · intro k hk
    rw [lookupProb_eq hA, hK k hk]
  · rw [lookupProb_eq hA, hP]

/-- Witness for C8 at the reachable state `demoS3`: a further create by
account 0 (registry present, next id 2) and by the fresh account 7
both succeed. -/
theorem C8_witness :
    (∃ s1, create_problem demoS3 0 [6] [] [] 11 = .ok s1 ∧
      s1.balances = demoS3.balances) ∧
    (∃ s1, create_problem demoS3 7 [] [] [] 9 = .ok s1) := by
  refine ⟨?_, ?_⟩
  · obtain ⟨s1, hs1, hbal, _⟩ := C8_create_never_aborts demoS3 reachable_demoS3 0 [6] [] [] 11
    exact ⟨s1, hs1, hbal⟩
  · obtain ⟨s1, hs1, _⟩ := C8_create_never_aborts demoS3 reachable_demoS3 7 [] [] [] 9
    exact ⟨s1, hs1⟩

/-- **C9** (implicit): every problem stored in the registry published at
address `a` has `owner = a` (`create_problem` writes the signer's own
address as both registry location and `owner`), and therefore the
ownership assert of `release_reward` — which resolves the registry at
the *caller's* address — can never be the failing condition in a
reachable state: no aborting call returns code 5. -/
theorem C9_owner_check_never_fails (s : GlobalState) (hr : Reachable s) :
    (∀ a reg pid p, s.registries a = some reg → reg.problems pid = some p →
        p.owner = a) ∧
    (∀ owner pid sid e, release_reward s owner pid sid = .error e →
        e ≠ .abortCode 5) := by
  have hinv := reachable_inv hr
  refine ⟨?_, ?_⟩
  · intro a reg pid p hreg hp
    exact ((hinv a reg hreg).2.2 pid p hp).1
  · intro owner pid sid e h
    exact release_reward_no_code5 hinv h

/-- Witness for C9 at the reachable state `demoS2`: problem 1 in the
registry of account 0 is owned by 0, and the failing release there
aborts with code 7, a code the theorem guarantees differs from 5. -/
theorem C9_witness :
    demoProb2.owner = 0 ∧ MoveErr.abortCode 7 ≠ MoveErr.abortCode 5 := by
  have h := C9_owner_check_never_fails demoS2 reachable_demoS2
  exact ⟨h.1 0 demoReg2 1 demoProb2 rfl rfl, h.2 0 1 1 (.abortCode 7) rfl⟩

/-- **C10** (implicit): in every reachable problem the solutions list
satisfies `solutions[i].id = i + 1` — ids are contiguous from 1 and
equal to position plus one — so any id-directed scan has at most one
match. -/
theorem C10_solution_ids_positional (s : GlobalState) (hr : Reachable s) :
    ∀ a pid p, lookupProb s a pid = some p →
      (∀ i (hi : i < p.solutions.length), (p.solutions.get ⟨i, hi⟩).id = i + 1) ∧
      (∀ sid i j (hi : i < p.solutions.length) (hj : j < p.solutions.length),
          (p.solutions.get ⟨i, hi⟩).id = sid → (p.solutions.get ⟨j, hj⟩).id = sid →
          i = j) := by
  intro a pid p hp
  have hids := (inv_prob (reachable_inv hr) hp).2.2.2
  refine ⟨hids, ?_⟩
  intro sid i j hi hj h1 h2
  rw [hids i hi] at h1
  rw [hids j hj] at h2
  omega

/-- Witness for C10 at the reachable state `demoS3`: the sole solution
of problem 1 carries id 1 = 0 + 1. -/
theorem C10_witness :
    (demoProb3.solutions.get ⟨0, by decide⟩).id = 0 + 1 :=
  (C10_solution_ids_positional demoS3 reachable_demoS3 0 1 demoProb3 rfl).1 0 (by decide)

end DefixProblemRegistry
